import Mathlib

/-!
Verification of the bread-mold detection pipeline (`Tubes.py`).

The image-processing core of the application is shallowly embedded here:
images are dense pixel grids represented as a width, a height and a flat
row-major list of pixels; OpenCV / numpy library calls are modelled by
their documented semantics; the Qt orchestrator class `MainApp` is
modelled as a functional state machine over an explicit `PipelineState`.
-/

namespace Tubes

/-- A three-channel 8-bit image (BGR order, as OpenCV loads it); pixels are
stored row-major.  Channel values are modelled as `Nat` (0..255 in use). -/
structure Img3 where
  width : Nat
  height : Nat
  data : List (Nat × Nat × Nat)
  deriving DecidableEq, Repr

/-- A single-channel 8-bit image (a binary mask in this pipeline). -/
structure Mask where
  width : Nat
  height : Nat
  data : List Nat
  deriving DecidableEq, Repr

/-- Minimum of a list of samples, modelling `np.min` on a non-empty array
(on `[]` we return 0; the source never calls it on an empty channel). -/
def minL : List Nat → Nat
  | [] => 0
  | h :: t => t.foldl min h

/-- Maximum of a list of samples, modelling `np.max` on a non-empty array. -/
def maxL : List Nat → Nat
  | [] => 0
  | h :: t => t.foldl max h

/-- Contrast stretching of the luminance (Y) channel, `Tubes.py` lines 46-58:
`min_y = np.min(y)`, `max_y = np.max(y)`, and if `max_y - min_y == 0` the
channel is returned unchanged, otherwise each sample `v` becomes
`((v - min_y) / (max_y - min_y) * 255).astype(np.uint8)`.  The `astype`
cast truncates toward zero, so the float expression is modelled by exact
truncating (floor) division. -/
def enhanceY (y : List Nat) : List Nat :=
  let mn := minL y
  let mx := maxL y
  if mx - mn = 0 then y
  else y.map (fun v => (v - mn) * 255 / (mx - mn))

/-- Clamp an integer into the 8-bit range, modelling `cv2.saturate_cast<uchar>`. -/
def clamp255 (x : ℤ) : Nat := (min 255 (max 0 x)).toNat

/-- One pixel of `cv2.cvtColor(..., cv2.COLOR_BGR2YCrCb)`, modelled from the
OpenCV documentation: `Y = 0.299 R + 0.587 G + 0.114 B`,
`Cr = (R - Y) * 0.713 + 128`, `Cb = (B - Y) * 0.564 + 128`, rounded and
saturated to 8 bits. -/
def bgr2ycrcbPix (p : Nat × Nat × Nat) : Nat × Nat × Nat :=
  let b : ℚ := p.1
  let g : ℚ := p.2.1
  let r : ℚ := p.2.2
  let y : ℚ := 0.299 * r + 0.587 * g + 0.114 * b
  (clamp255 (round y),
   clamp255 (round ((r - y) * 0.713 + 128)),
   clamp255 (round ((b - y) * 0.564 + 128)))

/-- One pixel of `cv2.cvtColor(..., cv2.COLOR_YCrCb2BGR)`, modelled from the
OpenCV documentation: `R = Y + 1.403 (Cr - 128)`,
`G = Y - 0.714 (Cr - 128) - 0.344 (Cb - 128)`, `B = Y + 1.773 (Cb - 128)`. -/
def ycrcb2bgrPix (p : Nat × Nat × Nat) : Nat × Nat × Nat :=
  let y : ℚ := p.1
  let cr : ℚ := p.2.1
  let cb : ℚ := p.2.2
  (clamp255 (round (y + 1.773 * (cb - 128))),
   clamp255 (round (y - 0.714 * (cr - 128) - 0.344 * (cb - 128))),
   clamp255 (round (y + 1.403 * (cr - 128))))

/-- Whole-image contrast stretching on a present image, `Tubes.py` lines
42-61: convert BGR to YCrCb, stretch the Y channel with `enhanceY`, put the
stretched channel back and convert to BGR again. -/
def enhanceImg (im : Img3) : Img3 :=
  let ycrcb := im.data.map bgr2ycrcbPix
  let ys := enhanceY (ycrcb.map (fun q => q.1))
  ⟨im.width, im.height,
   (ycrcb.zip ys).map (fun q => ycrcb2bgrPix (q.2, q.1.2.1, q.1.2.2))⟩

/-- `enhance_contrast_stretching` (`Tubes.py` lines 27-61): `None` input
propagates to `None` (modelled as `Option`); a present image is enhanced.
(The grayscale-replication branch at line 37 is not modelled: `Img3` is
three-channel by construction, as every caller in the source supplies.) -/
def enhance_contrast_stretching (img : Option Img3) : Option Img3 :=
  img.map enhanceImg

/-! ## HSV thresholding -/

/-- One pixel of `cv2.cvtColor(..., cv2.COLOR_BGR2HSV)` for 8-bit images,
modelled from the OpenCV documentation: `V = max(R,G,B)`,
`S = (V = 0) ? 0 : 255 (V - min) / V`, hue in degrees from the dominant
channel (plus 360 when negative) halved to fit 8 bits, each rounded. -/
def bgr2hsvPix (p : Nat × Nat × Nat) : Nat × Nat × Nat :=
  let b := p.1
  let g := p.2.1
  let r := p.2.2
  let v := max r (max g b)
  let mn := min r (min g b)
  let s : Nat := if v = 0 then 0 else (round ((255 * ((v : ℚ) - mn)) / v)).toNat
  let hdeg : ℚ :=
    if v = mn then 0
    else if v = r then 60 * ((g : ℚ) - b) / ((v : ℚ) - mn)
    else if v = g then 120 + 60 * ((b : ℚ) - r) / ((v : ℚ) - mn)
    else 240 + 60 * ((r : ℚ) - g) / ((v : ℚ) - mn)
  let hdeg := if hdeg < 0 then hdeg + 360 else hdeg
  ((round (hdeg / 2)).toNat, s, v)

/-- One pixel of `cv2.inRange(hsv, lower, upper)`: 255 iff every component of
`p` lies inside the inclusive per-component range, else 0. -/
def inRangePix (lo hi p : Nat × Nat × Nat) : Nat :=
  if lo.1 ≤ p.1 ∧ p.1 ≤ hi.1 ∧ lo.2.1 ≤ p.2.1 ∧ p.2.1 ≤ hi.2.1 ∧
     lo.2.2 ≤ p.2.2 ∧ p.2.2 ≤ hi.2.2 then 255 else 0

/-- Body of `apply_hsv_threshold` on a present image (`Tubes.py` lines 79-83):
convert to HSV and build the `cv2.inRange` mask. -/
def hsvThresholdCore (im : Img3) (lo hi : Nat × Nat × Nat) : Mask :=
  ⟨im.width, im.height, im.data.map (fun p => inRangePix lo hi (bgr2hsvPix p))⟩

/-- `apply_hsv_threshold` (`Tubes.py` lines 63-83): returns `None` when the
input image is `None` (lines 68-70), otherwise the `inRange` mask of the
HSV conversion.  There is no validity check on the bounds. -/
def apply_hsv_threshold (img : Option Img3) (lo hi : Nat × Nat × Nat) :
    Option Mask :=
  img.map (fun im => hsvThresholdCore im lo hi)

/-! ## Morphology -/

/-- Default structuring-element size, `DEFAULT_KERNEL_SIZE = (5, 5)`. -/
def DEFAULT_KERNEL_SIZE : Nat × Nat := (5, 5)

/-- In-bounds pixel lookup on a mask (row-major). -/
def maskGet (m : Mask) (x y : ℤ) : Option Nat :=
  if 0 ≤ x ∧ x < (m.width : ℤ) ∧ 0 ≤ y ∧ y < (m.height : ℤ) then
    m.data.get? (y.toNat * m.width + x.toNat)
  else none

/-- The in-bounds samples under a `kw × kh` rectangular structuring element
anchored at its centre `(kw/2, kh/2)` and placed at `(x, y)`.  Out-of-bounds
positions are ignored, modelling OpenCV's default morphology border value
(+inf for erosion, -inf for dilation). -/
def neighborhood (ks : Nat × Nat) (m : Mask) (x y : Nat) : List Nat :=
  (List.range ks.2).flatMap (fun dy =>
    (List.range ks.1).filterMap (fun dx =>
      maskGet m ((x : ℤ) + dx - (ks.1 / 2 : Nat)) ((y : ℤ) + dy - (ks.2 / 2 : Nat))))

/-- `cv2.erode` with a rectangular kernel: each output pixel is the minimum
over the structuring element (255 on an empty neighbourhood list, the
identity of `min` over 8-bit samples). -/
def erodeCore (ks : Nat × Nat) (m : Mask) : Mask :=
  ⟨m.width, m.height,
   (List.range m.height).flatMap (fun y =>
     (List.range m.width).map (fun x => (neighborhood ks m x y).foldr min 255))⟩

/-- `cv2.dilate` with a rectangular kernel: each output pixel is the maximum
over the structuring element. -/
def dilateCore (ks : Nat × Nat) (m : Mask) : Mask :=
  ⟨m.width, m.height,
   (List.range m.height).flatMap (fun y =>
     (List.range m.width).map (fun x => (neighborhood ks m x y).foldr max 0))⟩

/-- `cv2.morphologyEx(mask, cv2.MORPH_OPEN, kernel)`, modelled from the
OpenCV documentation: opening is dilation of the erosion. -/
def morphologyExOpen (ks : Nat × Nat) (m : Mask) : Mask :=
  dilateCore ks (erodeCore ks m)

/-- `cv2.morphologyEx(mask, cv2.MORPH_CLOSE, kernel)`, modelled from the
OpenCV documentation: closing is erosion of the dilation. -/
def morphologyExClose (ks : Nat × Nat) (m : Mask) : Mask :=
  erodeCore ks (dilateCore ks m)

/-- `apply_morphology_erode` (`Tubes.py` lines 88-92): `None` propagates,
otherwise erosion with the rectangular kernel of the given size. -/
def apply_morphology_erode (mask : Option Mask)
    (ks : Nat × Nat := DEFAULT_KERNEL_SIZE) : Option Mask :=
  mask.map (erodeCore ks)

/-- `apply_morphology_dilate` (`Tubes.py` lines 94-98). -/
def apply_morphology_dilate (mask : Option Mask)
    (ks : Nat × Nat := DEFAULT_KERNEL_SIZE) : Option Mask :=
  mask.map (dilateCore ks)

/-- `apply_morphology_open` (`Tubes.py` lines 100-104). -/
def apply_morphology_open (mask : Option Mask)
    (ks : Nat × Nat := DEFAULT_KERNEL_SIZE) : Option Mask :=
  mask.map (morphologyExOpen ks)

/-- `apply_morphology_close` (`Tubes.py` lines 106-110). -/
def apply_morphology_close (mask : Option Mask)
    (ks : Nat × Nat := DEFAULT_KERNEL_SIZE) : Option Mask :=
  mask.map (morphologyExClose ks)

/-- `np.count_nonzero` on a mask. -/
def countNonzero (m : Mask) : Nat := m.data.countP (fun v => v ≠ 0)

/-! ## Detection fusion and classification -/

/-- One detection record handed to `draw_detections_and_classify`: the
`'name'` field, the `'bbox'` tuple (plain Python ints, possibly out of the
image bounds or negative), and the optional `'score'` field (a float,
modelled as `ℚ`; `obj.get('score', 1.0)` defaults it). -/
structure Detection where
  name : String
  bbox : ℤ × ℤ × ℤ × ℤ
  score : Option ℚ
  deriving DecidableEq, Repr

/-- `obj.get('score', 1.0)` (`Tubes.py` line 128). -/
def scoreOf (d : Detection) : ℚ := d.score.getD 1

/-- The mold synonym list of `Tubes.py` line 138. -/
def moldNames : List String := ["mold", "mould", "bread_mold", "jamur"]

/-- Python's `str.lower()`, modelled characterwise. -/
def lowerStr (s : String) : String := ⟨s.data.map Char.toLower⟩

/-- `obj_name.lower() in ['mold', 'mould', 'bread_mold', 'jamur']`. -/
def isMoldName (name : String) : Bool := moldNames.contains (lowerStr name)

/-- One annotation placed on the display image: the `cv2.rectangle` call and
the `cv2.putText` call it is paired with (`Tubes.py` lines 152-157),
abstracted as a drawing command rather than rasterised pixels. -/
structure DrawnBox where
  xmin : ℤ
  ymin : ℤ
  xmax : ℤ
  ymax : ℤ
  color : Nat × Nat × Nat
  name : String
  score : ℚ
  text_x : ℤ
  text_y : ℤ
  deriving DecidableEq, Repr

/-- The annotated display image: the copied base image plus the list of
drawing commands issued on it, in order. -/
structure Annotated where
  base : Img3
  boxes : List DrawnBox
  deriving DecidableEq, Repr

/-- `(0, 0, 255)` (red, BGR) for mold, `(0, 255, 0)` (green) otherwise. -/
def boxColorOf (mold : Bool) : Nat × Nat × Nat :=
  if mold then (0, 0, 255) else (0, 255, 0)

/-- One iteration of the detection loop (`Tubes.py` lines 125-157) over the
accumulator `(boxes drawn so far, mold_detected)`. -/
def processDet (w h : Nat) (thr : ℚ) (acc : List DrawnBox × Bool)
    (d : Detection) : List DrawnBox × Bool :=
  let score := scoreOf d
  if score < thr then acc
  else
    let mold := isMoldName d.name
    let moldAcc := acc.2 || mold
    let xmin := max 0 d.bbox.1
    let ymin := max 0 d.bbox.2.1
    let xmax := min ((w : ℤ) - 1) d.bbox.2.2.1
    let ymax := min ((h : ℤ) - 1) d.bbox.2.2.2
    if xmin < xmax ∧ ymin < ymax then
      (acc.1 ++ [⟨xmin, ymin, xmax, ymax, boxColorOf mold, d.name, score,
                  xmin, if ymin - 5 > 10 then ymin - 5 else ymin + 15⟩],
       moldAcc)
    else (acc.1, moldAcc)

/-- `draw_detections_and_classify` (`Tubes.py` lines 113-163): copy the
image, return it untouched with `"SEGAR"` when the detection list is empty,
otherwise run the loop and report `"BERJAMUR"` iff `mold_detected`. -/
def draw_detections_and_classify (img : Img3) (dets : List Detection)
    (thr : ℚ := 1 / 2) : Annotated × String :=
  if dets = [] then (⟨img, []⟩, "SEGAR")
  else
    let r := dets.foldl (processDet img.width img.height thr) ([], false)
    (⟨img, r.1⟩, if r.2 then "BERJAMUR" else "SEGAR")

/-- A detection passes the confidence cut of `Tubes.py` line 131 when its
(defaulted) score is not below the threshold. -/
def acceptedDet (thr : ℚ) (d : Detection) : Bool := !decide (scoreOf d < thr)

/-- The bounding box clipped to the image bounds, `Tubes.py` lines 145-148:
`(max(0, xmin), max(0, ymin), min(w - 1, xmax), min(h - 1, ymax))`. -/
def clipBox (w h : Nat) (d : Detection) : ℤ × ℤ × ℤ × ℤ :=
  (max 0 d.bbox.1, max 0 d.bbox.2.1,
   min ((w : ℤ) - 1) d.bbox.2.2.1, min ((h : ℤ) - 1) d.bbox.2.2.2)

/-- The clipped box passes the validity test of `Tubes.py` line 151:
`xmin < xmax and ymin < ymax`. -/
def nondegenerate (w h : Nat) (d : Detection) : Bool :=
  decide ((clipBox w h d).1 < (clipBox w h d).2.2.1) &&
  decide ((clipBox w h d).2.1 < (clipBox w h d).2.2.2)

/-- The drawing command emitted for an accepted, nondegenerate detection
(`Tubes.py` lines 152-157). -/
def renderBox (w h : Nat) (d : Detection) : DrawnBox :=
  let c := clipBox w h d
  ⟨c.1, c.2.1, c.2.2.1, c.2.2.2, boxColorOf (isMoldName d.name), d.name,
   scoreOf d, c.1, if c.2.1 - 5 > 10 then c.2.1 - 5 else c.2.1 + 15⟩

/-! ## The orchestrator (`MainApp`) as a state machine -/

/-- The mutable fields of `MainApp` that make up the pipeline state:
`current_step`, the five cached image buffers, and whether
`load_detection_model` succeeded (`detection_model is not None`). -/
structure PipelineState where
  current_step : Nat
  original : Option Img3
  processed : Option Img3
  hsv_mask : Option Mask
  morphed_mask : Option Mask
  detection : Option Annotated
  model_loaded : Bool
  deriving DecidableEq, Repr

/-- The initial state built by `MainApp.__init__` (`Tubes.py` lines 255-264):
every buffer `None`, `current_step = 0`. -/
def initState (model : Bool) : PipelineState :=
  ⟨0, none, none, none, none, none, model⟩

/-- The HSV bounds hard-coded in `action_step3_hsv_threshold`
(`Tubes.py` lines 839-840). -/
def lowerHSV : Nat × Nat × Nat := (40, 50, 30)

/-- Upper HSV bound, `Tubes.py` line 840. -/
def upperHSV : Nat × Nat × Nat := (100, 255, 200)

/-- The four morphology menu entries (`Tubes.py` lines 906-920). -/
inductive MorphOp where
  | erode
  | dilate
  | opening
  | closing
  deriving DecidableEq, Repr

/-- The `morph_func` passed for each menu entry: the four module-level
wrappers, each at the default kernel size. -/
def runMorph (op : MorphOp) (mask : Option Mask) : Option Mask :=
  match op with
  | .erode => apply_morphology_erode mask
  | .dilate => apply_morphology_dilate mask
  | .opening => apply_morphology_open mask
  | .closing => apply_morphology_close mask

/-- Outcome reported by `_apply_and_display_morphology`: the step-3-first
info box, the empty-mask warning, the generic failure box, or success. -/
inductive MorphReport where
  | NeedHSV
  | EmptyMask
  | Failed
  | Applied
  deriving DecidableEq, Repr

/-- `MainApp._apply_and_display_morphology` (`Tubes.py` lines 864-904): bail
out untouched when there is no HSV mask; bail out untouched with the
empty-mask warning when `np.count_nonzero(mask) == 0`; otherwise store the
morphed mask, keep `current_step`, and reset the detection result. -/
def applyMorphology (op : MorphOp) (s : PipelineState) :
    PipelineState × MorphReport :=
  match s.hsv_mask with
  | none => (s, .NeedHSV)
  | some m =>
    if countNonzero m = 0 then (s, .EmptyMask)
    else
      match runMorph op (some m) with
      | none => (s, .Failed)
      | some mm =>
        ({ s with morphed_mask := some mm, detection := none }, .Applied)

/-- Successful branch of `action_step1_pilih_gambar` (`Tubes.py` lines
744-766): store the loaded image, reset every processed buffer, step 1. -/
def action_step1_success (s : PipelineState) (img : Img3) : PipelineState :=
  { s with original := some img, processed := none, hsv_mask := none,
           morphed_mask := none, detection := none, current_step := 1 }

/-- Failing branch of `action_step1_pilih_gambar` (`Tubes.py` lines 746,
767-773): `cv2.imread` returned `None`, so `current_image_original` becomes
`None` and `current_step` falls back to 0; the processed buffers are NOT
cleared on this path. -/
def action_step1_fail (s : PipelineState) : PipelineState :=
  { s with original := none, current_step := 0 }

/-- `action_step2_perbaiki_kualitas` (`Tubes.py` lines 784-818): requires an
original image; stores the enhanced image, moves to step 2, and resets the
downstream HSV mask, morphed mask and detection result (lines 812-814). -/
def action_step2 (s : PipelineState) : PipelineState :=
  match s.original with
  | none => s
  | some o =>
    match enhance_contrast_stretching (some o) with
    | none => s
    | some e =>
      { s with processed := some e, current_step := 2, hsv_mask := none,
               morphed_mask := none, detection := none }

/-- `action_step3_hsv_threshold` (`Tubes.py` lines 821-861): requires the
enhanced image; stores the HSV mask, resets the morphed mask (line 848),
moves to step 3, and resets the detection result (line 857). -/
def action_step3 (s : PipelineState) : PipelineState :=
  match s.processed with
  | none => s
  | some p =>
    match apply_hsv_threshold (some p) lowerHSV upperHSV with
    | none => s
    | some m =>
      { s with hsv_mask := some m, morphed_mask := none, current_step := 3,
               detection := none }

/-- The image handed to the detector in step 5 (`Tubes.py` lines 931-935):
the enhanced image when present, else the original. -/
def imgForYolo (s : PipelineState) : Option Img3 :=
  match s.processed with
  | some p => some p
  | none => s.original

/-- `action_step5_deteksi_dan_klasifikasi` (`Tubes.py` lines 924-991):
requires an image and a loaded model; the externally produced detection
list `dets` is fused with the image at threshold 0.5 and the annotated
image stored, moving to step 5. -/
def action_step5 (s : PipelineState) (dets : List Detection) : PipelineState :=
  match imgForYolo s with
  | none => s
  | some img =>
    if s.model_loaded then
      { s with
        detection := some (draw_detections_and_classify img dets (1 / 2)).1,
        current_step := 5 }
    else s

/-- `action_step6_reset_aplikasi` (`Tubes.py` lines 1002-1017): every buffer
back to `None`, step 0. -/
def action_step6_reset (s : PipelineState) : PipelineState :=
  { current_step := 0, original := none, processed := none, hsv_mask := none,
    morphed_mask := none, detection := none, model_loaded := s.model_loaded }

/-- One user-triggered transition of the orchestrator.  Each constructor
carries the enabling condition from `set_button_states` (`Tubes.py` lines
656-675) under which the corresponding button or menu entry is clickable. -/
inductive OrchStep : PipelineState → PipelineState → Prop where
  | load_success (s : PipelineState) (img : Img3) :
      s.current_step = 0 → OrchStep s (action_step1_success s img)
  | load_fail (s : PipelineState) :
      s.current_step = 0 → OrchStep s (action_step1_fail s)
  | enhance (s : PipelineState) :
      s.current_step = 1 → OrchStep s (action_step2 s)
  | hsv (s : PipelineState) :
      s.current_step = 2 → OrchStep s (action_step3 s)
  | morph (s : PipelineState) (op : MorphOp) (m : Mask) :
      3 ≤ s.current_step → s.hsv_mask = some m → 0 < countNonzero m →
      OrchStep s (applyMorphology op s).1
  | classify (s : PipelineState) (dets : List Detection) :
      (3 ≤ s.current_step ∨ s.morphed_mask ≠ none) → s.model_loaded = true →
      OrchStep s (action_step5 s dets)
  | reset (s : PipelineState) :
      1 ≤ s.current_step → OrchStep s (action_step6_reset s)

/-- The states the orchestrator can reach from start-up. -/
inductive Reachable : PipelineState → Prop where
  | init (model : Bool) : Reachable (initState model)
  | step {s t : PipelineState} : Reachable s → OrchStep s t → Reachable t

/-- Freshness of every cached downstream buffer: each present stage output
equals the stage function applied to the currently cached upstream input
(so it cannot derive from a stale one), and a state at step 0 holds no
buffers at all. -/
def consistent (s : PipelineState) : Prop :=
  (∀ m, s.hsv_mask = some m →
    ∃ p, s.processed = some p ∧
      apply_hsv_threshold (some p) lowerHSV upperHSV = some m) ∧
  (∀ mm, s.morphed_mask = some mm →
    ∃ m, s.hsv_mask = some m ∧ ∃ op, runMorph op (some m) = some mm) ∧
  (∀ d, s.detection = some d →
    ∃ img dets, imgForYolo s = some img ∧
      d = (draw_detections_and_classify img dets (1 / 2)).1) ∧
  (s.current_step = 0 →
    s.original = none ∧ s.processed = none ∧ s.hsv_mask = none ∧
    s.morphed_mask = none ∧ s.detection = none)

/-! ## Test fixtures -/

/-- A one-pixel black image. -/
def cImgA : Img3 := ⟨1, 1, [(0, 0, 0)]⟩

/-- A 10 × 10 black image. -/
def cImg10 : Img3 := ⟨10, 10, List.replicate 100 (0, 0, 0)⟩

/-- A confident mold detection whose box clips to the degenerate box
`(5, 5, 5, 5)` on a 10 × 10 image. -/
def cDetMoldDegenerate : Detection := ⟨"mold", (5, 5, 5, 5), some (9 / 10)⟩

/-- A confident mold detection with a proper box. -/
def cDetMold : Detection := ⟨"mold", (0, 0, 5, 5), some (9 / 10)⟩

/-- A mold detection carrying no `'score'` field. -/
def cDetNoScore : Detection := ⟨"mold", (0, 0, 5, 5), none⟩

/-- The all-zero 1 × 1 mask. -/
def cMask0 : Mask := ⟨1, 1, [0]⟩

/-- A state sitting at step 3 whose HSV mask is all zero. -/
def cStateMorph : PipelineState :=
  ⟨3, some cImgA, some cImgA, some cMask0, none, none, true⟩

/-- A freshly loaded state (step 1). -/
def cState1 : PipelineState := ⟨1, some cImgA, none, none, none, none, true⟩

/-- An enhanced state (step 2). -/
def cState2 : PipelineState :=
  ⟨2, some cImgA, some cImgA, none, none, none, true⟩

/-- The spec's remapping rule, written from the spec's words for comparison
with the code: "remaps every luminance sample `v` to
`round((v - min) * 255 / (max - min))`, clamped to [0,255]". -/
def specRoundStretch (mn mx v : Nat) : Nat :=
  min 255 (Int.toNat (round (((v : ℚ) - mn) * 255 / ((mx : ℚ) - mn))))

/-! ## Lemmas about the luminance stretch -/

theorem foldl_min_le_init (t : List Nat) (a : Nat) : t.foldl min a ≤ a := by
  induction t generalizing a with
  | nil => simp
  | cons x t ih => exact le_trans (ih (min a x)) (min_le_left a x)

theorem le_foldl_max_init (t : List Nat) (a : Nat) : a ≤ t.foldl max a := by
  induction t generalizing a with
  | nil => simp
  | cons x t ih => exact le_trans (le_max_left a x) (ih (max a x))

theorem le_foldl_max_of_mem (t : List Nat) (a v : Nat) (h : v ∈ t) :
    v ≤ t.foldl max a := by
  induction t generalizing a with
  | nil => simp at h
  | cons x t ih =>
    rcases List.mem_cons.mp h with rfl | hm
    · exact le_trans (le_max_right a v) (le_foldl_max_init t (max a v))
    · exact ih (max a x) hm

theorem minL_le_maxL (y : List Nat) : minL y ≤ maxL y := by
  cases y with
  | nil => simp [minL, maxL]
  | cons h t =>
    exact le_trans (foldl_min_le_init t h) (le_foldl_max_init t h)

theorem le_maxL_of_mem {y : List Nat} {v : Nat} (h : v ∈ y) : v ≤ maxL y := by
  cases y with
  | nil => simp at h
  | cons a t =>
    rcases List.mem_cons.mp h with rfl | hm
    · exact le_foldl_max_init t v
    · exact le_foldl_max_of_mem t a v hm

/-- C8 — EnhanceLuminance on a uniform input (luminance max == min) leaves
the luminance channel unchanged; the stretch branch, with its division by
`max - min`, is never entered (`Tubes.py` lines 51-52). -/
theorem enhanceY_uniform_unchanged (y : List Nat) (h : maxL y = minL y) :
    enhanceY y = y := by
  simp [enhanceY, h]

theorem enhanceY_uniform_unchanged_witness :
    maxL [7, 7, 7] = minL [7, 7, 7] ∧ enhanceY [7, 7, 7] = [7, 7, 7] :=
  ⟨by decide, enhanceY_uniform_unchanged [7, 7, 7] (by decide)⟩

/-- C2 counterexample — the code truncates (`astype(np.uint8)`), it does not
round: on the luminance channel `[0, 1, 2]` the middle sample maps to
`(1 - 0) * 255 / (2 - 0) = 127.5`, which the code truncates to 127 while
the spec's `round` gives 128. -/
theorem enhanceY_round_counterexample :
    (enhanceY [0, 1, 2]).get? 1 = some 127 ∧
    specRoundStretch (minL [0, 1, 2]) (maxL [0, 1, 2]) 1 = 128 ∧
    (enhanceY [0, 1, 2]).get? 1 ≠
      some (specRoundStretch (minL [0, 1, 2]) (maxL [0, 1, 2]) 1) := by
  refine ⟨by decide, ?_, ?_⟩ <;>
    norm_num [specRoundStretch, minL, maxL, round_eq, enhanceY] <;> decide

/-- C2 amended — EnhanceLuminance: for a non-uniform input (luminance
max ≠ min), every output luminance sample equals
`(v - min) * 255 / (max - min)` truncated toward zero (not rounded) of the
corresponding input sample `v`, and the result never exceeds 255. -/
theorem enhanceY_stretch_formula (y : List Nat) (i v : Nat)
    (hne : minL y ≠ maxL y) (hv : y.get? i = some v) :
    (enhanceY y).get? i =
      some ((v - minL y) * 255 / (maxL y - minL y)) ∧
    (v - minL y) * 255 / (maxL y - minL y) ≤ 255 := by
  have hle : minL y ≤ maxL y := minL_le_maxL y
  have hlt : minL y < maxL y := lt_of_le_of_ne hle hne
  have hd : maxL y - minL y ≠ 0 := Nat.sub_ne_zero_of_lt hlt
  constructor
  · simp only [enhanceY, if_neg hd]
    rw [List.get?_map, hv]
    rfl
  · have hmem : v ∈ y := List.get?_mem hv
    have hvmax : v ≤ maxL y := le_maxL_of_mem hmem
    calc (v - minL y) * 255 / (maxL y - minL y)
        ≤ (maxL y - minL y) * 255 / (maxL y - minL y) :=
          Nat.div_le_div_right
            (Nat.mul_le_mul_right _ (Nat.sub_le_sub_right hvmax _))
      _ = 255 := by
          rw [Nat.mul_comm]
          exact Nat.mul_div_cancel 255 (Nat.pos_of_ne_zero hd)

theorem enhanceY_stretch_formula_witness :
    minL [0, 1, 2] ≠ maxL [0, 1, 2] ∧ [0, 1, 2].get? 1 = some 1 ∧
    (enhanceY [0, 1, 2]).get? 1 =
      some ((1 - minL [0, 1, 2]) * 255 / (maxL [0, 1, 2] - minL [0, 1, 2])) ∧
    (1 - minL [0, 1, 2]) * 255 / (maxL [0, 1, 2] - minL [0, 1, 2]) ≤ 255 :=
  ⟨by decide, by decide,
   (enhanceY_stretch_formula [0, 1, 2] 1 1 (by decide) (by decide)).1,
   (enhanceY_stretch_formula [0, 1, 2] 1 1 (by decide) (by decide)).2⟩

/-- C7 — morphology composition: for every mask and structuring-element
size, opening is dilation of the erosion and closing is erosion of the
dilation, with the same rectangular kernel throughout. -/
theorem morphology_open_close_composition (mask : Option Mask)
    (ks : Nat × Nat) :
    apply_morphology_open mask ks =
      apply_morphology_dilate (apply_morphology_erode mask ks) ks ∧
    apply_morphology_close mask ks =
      apply_morphology_erode (apply_morphology_dilate mask ks) ks := by
  cases mask <;> exact ⟨rfl, rfl⟩

/-- C5 — empty-mask guard: every morphology request routed through
`_apply_and_display_morphology` on an all-zero HSV mask is refused with the
`EmptyMask` warning and returns the pipeline state unchanged: the cached
HSV mask, morphed mask, detection result and step counter are all kept. -/
theorem morphology_empty_mask_guard (s : PipelineState) (op : MorphOp)
    (m : Mask) (hm : s.hsv_mask = some m) (hz : countNonzero m = 0) :
    applyMorphology op s = (s, MorphReport.EmptyMask) := by
  simp [applyMorphology, hm, hz]

theorem morphology_empty_mask_guard_witness :
    cStateMorph.hsv_mask = some cMask0 ∧ countNonzero cMask0 = 0 ∧
    applyMorphology MorphOp.erode cStateMorph =
      (cStateMorph, MorphReport.EmptyMask) :=
  ⟨rfl, by decide,
   morphology_empty_mask_guard cStateMorph MorphOp.erode cMask0 rfl (by decide)⟩

/-- C4 — ThresholdHSV: on a present 3-channel image with componentwise
ordered bounds, the result is a single-channel mask of the same dimensions
in which a pixel is 255 iff each HSV component of the corresponding input
pixel lies in the inclusive range, 0 otherwise, so at most the two values
0 and 255 occur. -/
theorem hsv_threshold_mask_spec (im : Img3) (lo hi : Nat × Nat × Nat)
    (h1 : lo.1 ≤ hi.1) (h2 : lo.2.1 ≤ hi.2.1) (h3 : lo.2.2 ≤ hi.2.2) :
    apply_hsv_threshold (some im) lo hi = some (hsvThresholdCore im lo hi) ∧
    (hsvThresholdCore im lo hi).width = im.width ∧
    (hsvThresholdCore im lo hi).height = im.height ∧
    (hsvThresholdCore im lo hi).data.length = im.data.length ∧
    (∀ i p, im.data.get? i = some p →
      (((hsvThresholdCore im lo hi).data.get? i = some 255) ↔
        (lo.1 ≤ (bgr2hsvPix p).1 ∧ (bgr2hsvPix p).1 ≤ hi.1 ∧
         lo.2.1 ≤ (bgr2hsvPix p).2.1 ∧ (bgr2hsvPix p).2.1 ≤ hi.2.1 ∧
         lo.2.2 ≤ (bgr2hsvPix p).2.2 ∧ (bgr2hsvPix p).2.2 ≤ hi.2.2)) ∧
      (((hsvThresholdCore im lo hi).data.get? i = some 0) ↔
        ¬ (lo.1 ≤ (bgr2hsvPix p).1 ∧ (bgr2hsvPix p).1 ≤ hi.1 ∧
           lo.2.1 ≤ (bgr2hsvPix p).2.1 ∧ (bgr2hsvPix p).2.1 ≤ hi.2.1 ∧
           lo.2.2 ≤ (bgr2hsvPix p).2.2 ∧ (bgr2hsvPix p).2.2 ≤ hi.2.2))) ∧
    (∀ v ∈ (hsvThresholdCore im lo hi).data, v = 0 ∨ v = 255) := by
  refine ⟨rfl, rfl, rfl, by simp [hsvThresholdCore], ?_, ?_⟩
  · intro i p hp
    have hmap : (hsvThresholdCore im lo hi).data.get? i =
        some (inRangePix lo hi (bgr2hsvPix p)) := by
      simp only [hsvThresholdCore]
      rw [List.get?_map, hp]
      rfl
    rw [hmap]
    unfold inRangePix
    by_cases hc : lo.1 ≤ (bgr2hsvPix p).1 ∧ (bgr2hsvPix p).1 ≤ hi.1 ∧
        lo.2.1 ≤ (bgr2hsvPix p).2.1 ∧ (bgr2hsvPix p).2.1 ≤ hi.2.1 ∧
        lo.2.2 ≤ (bgr2hsvPix p).2.2 ∧ (bgr2hsvPix p).2.2 ≤ hi.2.2
    · simp [hc]
    · simp [hc]
  · intro v hv
    simp only [hsvThresholdCore, List.mem_map] at hv
    obtain ⟨p, _, rfl⟩ := hv
    unfold inRangePix
    by_cases hc : lo.1 ≤ (bgr2hsvPix p).1 ∧ (bgr2hsvPix p).1 ≤ hi.1 ∧
        lo.2.1 ≤ (bgr2hsvPix p).2.1 ∧ (bgr2hsvPix p).2.1 ≤ hi.2.1 ∧
        lo.2.2 ≤ (bgr2hsvPix p).2.2 ∧ (bgr2hsvPix p).2.2 ≤ hi.2.2
    · simp [hc]
    · simp [hc]

theorem hsv_threshold_mask_spec_witness :
    apply_hsv_threshold (some cImgA) (0, 0, 0) (255, 255, 255) =
      some (hsvThresholdCore cImgA (0, 0, 0) (255, 255, 255)) ∧
    (hsvThresholdCore cImgA (0, 0, 0) (255, 255, 255)).data.length =
      cImgA.data.length :=
  ⟨(hsv_threshold_mask_spec cImgA (0, 0, 0) (255, 255, 255)
      (by decide) (by decide) (by decide)).1,
   (hsv_threshold_mask_spec cImgA (0, 0, 0) (255, 255, 255)
      (by decide) (by decide) (by decide)).2.2.2.1⟩

/-- C9 counterexample — with the hue lower bound 10 above the hue upper
bound 5, `apply_hsv_threshold` does NOT signal any error: it happily
produces a mask (here the all-zero 1 × 1 mask), because the source has no
bounds check at all (`Tubes.py` lines 63-83). -/
theorem hsv_threshold_no_range_check_counterexample :
    (5 : Nat) < 10 ∧
    apply_hsv_threshold (some cImgA) (10, 0, 0) (5, 255, 255) =
      some ⟨1, 1, [0]⟩ := by
  constructor
  · decide
  · show some (hsvThresholdCore cImgA (10, 0, 0) (5, 255, 255)) = _
    norm_num [hsvThresholdCore, cImgA, bgr2hsvPix, inRangePix]

/-- C9 amended — ThresholdHSV: an absent image yields `None` (the code's
`InvalidInput` signal, lines 68-70); inverted bounds are NOT rejected: when
some lower bound exceeds its upper bound the operation still produces a
mask, every pixel of which is unset. -/
theorem hsv_threshold_error_handling :
    (∀ lo hi, apply_hsv_threshold none lo hi = none) ∧
    (∀ (im : Img3) (lo hi : Nat × Nat × Nat),
      (hi.1 < lo.1 ∨ hi.2.1 < lo.2.1 ∨ hi.2.2 < lo.2.2) →
      ∀ v ∈ (hsvThresholdCore im lo hi).data, v = 0) := by
  refine ⟨fun _ _ => rfl, ?_⟩
  intro im lo hi hbad v hv
  simp only [hsvThresholdCore, List.mem_map] at hv
  obtain ⟨p, _, rfl⟩ := hv
  unfold inRangePix
  have hfail : ¬ (lo.1 ≤ (bgr2hsvPix p).1 ∧ (bgr2hsvPix p).1 ≤ hi.1 ∧
      lo.2.1 ≤ (bgr2hsvPix p).2.1 ∧ (bgr2hsvPix p).2.1 ≤ hi.2.1 ∧
      lo.2.2 ≤ (bgr2hsvPix p).2.2 ∧ (bgr2hsvPix p).2.2 ≤ hi.2.2) := by
    rintro ⟨a1, a2, a3, a4, a5, a6⟩
    rcases hbad with hb | hb | hb <;> omega
  simp [hfail]

theorem hsv_threshold_error_handling_witness :
    apply_hsv_threshold none (10, 0, 0) (5, 255, 255) = none ∧
    ((5 : Nat) < 10 ∨ (255 : Nat) < 0 ∨ (255 : Nat) < 0) ∧
    ∀ v ∈ (hsvThresholdCore cImgA (10, 0, 0) (5, 255, 255)).data, v = 0 :=
  ⟨hsv_threshold_error_handling.1 (10, 0, 0) (5, 255, 255),
   Or.inl (by decide),
   hsv_threshold_error_handling.2 cImgA (10, 0, 0) (5, 255, 255)
     (Or.inl (by decide))⟩

/-! ## Lemmas about the detection loop -/

theorem processDet_skip (w h : Nat) (thr : ℚ) (acc : List DrawnBox × Bool)
    (d : Detection) (hs : scoreOf d < thr) :
    processDet w h thr acc d = acc := by
  simp [processDet, hs]

theorem processDet_fst (w h : Nat) (thr : ℚ) (acc : List DrawnBox × Bool)
    (d : Detection) (hs : ¬ scoreOf d < thr) :
    (processDet w h thr acc d).1 =
      if nondegenerate w h d then acc.1 ++ [renderBox w h d] else acc.1 := by
  simp only [processDet, if_neg hs, nondegenerate, clipBox, renderBox,
    Bool.and_eq_true, decide_eq_true_eq]
  split
  · next hc => simp [if_pos hc]
  · next hc => simp [if_neg hc]

theorem processDet_snd (w h : Nat) (thr : ℚ) (acc : List DrawnBox × Bool)
    (d : Detection) (hs : ¬ scoreOf d < thr) :
    (processDet w h thr acc d).2 = (acc.2 || isMoldName d.name) := by
  simp only [processDet, if_neg hs]
  split <;> rfl

theorem foldl_processDet_snd (w h : Nat) (thr : ℚ) (l : List Detection) :
    ∀ acc : List DrawnBox × Bool,
    (l.foldl (processDet w h thr) acc).2 =
      (acc.2 || l.any (fun d => acceptedDet thr d && isMoldName d.name)) := by
  induction l with
  | nil => simp
  | cons d t ih =>
    intro acc
    rw [List.foldl_cons, List.any_cons, ih]
    by_cases hs : scoreOf d < thr
    · rw [processDet_skip _ _ _ _ _ hs]
      simp [acceptedDet, hs]
    · rw [processDet_snd _ _ _ _ _ hs]
      simp [acceptedDet, hs, Bool.or_assoc]

theorem foldl_processDet_fst (w h : Nat) (thr : ℚ) (l : List Detection) :
    ∀ acc : List DrawnBox × Bool,
    (l.foldl (processDet w h thr) acc).1 =
      acc.1 ++ (l.filter
        (fun d => acceptedDet thr d && nondegenerate w h d)).map
          (renderBox w h) := by
  induction l with
  | nil => simp
  | cons d t ih =>
    intro acc
    rw [List.foldl_cons, ih]
    by_cases hs : scoreOf d < thr
    · rw [processDet_skip _ _ _ _ _ hs]
      have : acceptedDet thr d = false := by simp [acceptedDet, hs]
      simp [List.filter_cons, this]
    · have ha : acceptedDet thr d = true := by simp [acceptedDet, hs]
      have h1 := processDet_fst w h thr acc d hs
      by_cases hnd : nondegenerate w h d = true
      · rw [List.filter_cons]
        simp only [ha, hnd, Bool.and_self, if_pos]
        rw [h1, if_pos hnd]
        simp
      · rw [List.filter_cons]
        have hnd' : nondegenerate w h d = false := by
          revert hnd; cases nondegenerate w h d <;> simp
        simp only [ha, hnd', Bool.and_false, Bool.true_and, if_neg]
        rw [h1, if_neg (by simp [hnd'])]
        simp [hnd']

theorem foldl_processDet_filter (w h : Nat) (thr : ℚ) (l : List Detection) :
    ∀ acc : List DrawnBox × Bool,
    l.foldl (processDet w h thr) acc =
      (l.filter (acceptedDet thr)).foldl (processDet w h thr) acc := by
  induction l with
  | nil => simp
  | cons d t ih =>
    intro acc
    rw [List.foldl_cons, List.filter_cons]
    by_cases hs : scoreOf d < thr
    · have hf : acceptedDet thr d = false := by simp [acceptedDet, hs]
      rw [processDet_skip _ _ _ _ _ hs]
      simp only [hf, Bool.false_eq_true, if_false]
      exact ih acc
    · have ha : acceptedDet thr d = true := by simp [acceptedDet, hs]
      simp only [ha, if_pos, List.foldl_cons]
      exact ih (processDet w h thr acc d)

/-- Any accepted detection whose lowercased name is in the mold synonym
list forces the `"BERJAMUR"` verdict, whatever its bounding box is. -/
theorem verdict_of_accepted_mold (img : Img3) (dets : List Detection)
    (thr : ℚ) (d : Detection) (hd : d ∈ dets) (hs : ¬ scoreOf d < thr)
    (hm : isMoldName d.name = true) :
    (draw_detections_and_classify img dets thr).2 = "BERJAMUR" := by
  have hne : dets ≠ [] := by rintro rfl; simp at hd
  have hany : dets.any
      (fun d => acceptedDet thr d && isMoldName d.name) = true := by
    rw [List.any_eq_true]
    exact ⟨d, hd, by simp [acceptedDet, hs, hm]⟩
  simp only [draw_detections_and_classify, if_neg hne]
  rw [foldl_processDet_snd]
  simp [hany]

/-- C1 — FuseAndClassify: an empty detection list returns the unannotated
copy of the image with verdict `"SEGAR"` (FRESH); the verdict is
`"BERJAMUR"` (MOLDY) iff some detection at or above the confidence
threshold carries a mold-synonym label (case-insensitively); and the
below-threshold detections are entirely inert — removing them from the
input changes nothing (they are neither drawn nor counted). -/
theorem fuse_classify_verdict_policy (img : Img3) (dets : List Detection)
    (thr : ℚ) :
    (dets = [] →
      draw_detections_and_classify img dets thr = (⟨img, []⟩, "SEGAR")) ∧
    ((draw_detections_and_classify img dets thr).2 = "BERJAMUR" ↔
      ∃ d ∈ dets, ¬ (scoreOf d < thr) ∧ isMoldName d.name = true) ∧
    draw_detections_and_classify img dets thr =
      draw_detections_and_classify img (dets.filter (acceptedDet thr)) thr := by
  refine ⟨fun h => by subst h; rfl, ?_, ?_⟩
  · by_cases hne : dets = []
    · subst hne
      simp [draw_detections_and_classify]
    · simp only [draw_detections_and_classify, if_neg hne]
      rw [foldl_processDet_snd]
      simp only [Bool.false_or]
      constructor
      · intro hv
        by_cases hany : dets.any
            (fun d => acceptedDet thr d && isMoldName d.name) = true
        · obtain ⟨d, hd, hda⟩ := List.any_eq_true.mp hany
          refine ⟨d, hd, ?_, ?_⟩
          · have := (Bool.and_eq_true _ _).mp hda
            simpa [acceptedDet] using this.1
          · exact ((Bool.and_eq_true _ _).mp hda).2
        · rw [Bool.not_eq_true] at hany
          rw [hany] at hv
          simp at hv
      · rintro ⟨d, hd, hs, hm⟩
        have hany : dets.any
            (fun d => acceptedDet thr d && isMoldName d.name) = true :=
          List.any_eq_true.mpr ⟨d, hd, by simp [acceptedDet, hs, hm]⟩
        simp [hany]
  · by_cases hne : dets = []
    · subst hne; rfl
    · by_cases hf : dets.filter (acceptedDet thr) = []
      · have hfold := foldl_processDet_filter img.width img.height thr dets
          (([], false) : List DrawnBox × Bool)
        rw [hf] at hfold
        simp only [List.foldl_nil] at hfold
        simp only [draw_detections_and_classify, if_neg hne, hf, if_pos]
        rw [hfold]
        simp
      · simp only [draw_detections_and_classify, if_neg hne, if_neg hf]
        rw [foldl_processDet_filter]

theorem fuse_classify_verdict_policy_witness :
    draw_detections_and_classify cImg10 ([] : List Detection) (1 / 2) =
      (⟨cImg10, []⟩, "SEGAR") ∧
    ((draw_detections_and_classify cImg10 [cDetMold] (1 / 2)).2 = "BERJAMUR" ↔
      ∃ d ∈ [cDetMold], ¬ (scoreOf d < 1 / 2) ∧ isMoldName d.name = true) :=
  ⟨(fuse_classify_verdict_policy cImg10 [] (1 / 2)).1 rfl,
   (fuse_classify_verdict_policy cImg10 [cDetMold] (1 / 2)).2.1⟩

/-- C3 counterexample — an accepted mold detection whose box clips to the
degenerate `(5, 5, 5, 5)` on a 10 × 10 image is not drawn (no boxes), yet
the verdict is `"BERJAMUR"`, not `"SEGAR"`: `mold_detected` is set at
`Tubes.py` line 139, before the degeneracy test of line 151. -/
theorem degenerate_mold_sets_verdict_counterexample :
    (draw_detections_and_classify cImg10 [cDetMoldDegenerate] (1 / 2)).1.boxes
      = [] ∧
    (draw_detections_and_classify cImg10 [cDetMoldDegenerate] (1 / 2)).2
      = "BERJAMUR" := by
  have hs : ¬ scoreOf cDetMoldDegenerate < (1 / 2 : ℚ) := by
    norm_num [scoreOf, cDetMoldDegenerate]
  have hm : isMoldName cDetMoldDegenerate.name = true := by decide
  have hnd : nondegenerate cImg10.width cImg10.height cDetMoldDegenerate
      = false := by decide
  constructor
  · simp only [draw_detections_and_classify,
      if_neg (by simp : ¬ ([cDetMoldDegenerate] : List Detection) = [])]
    rw [foldl_processDet_fst]
    simp [List.filter_cons, hnd]
  · exact verdict_of_accepted_mold cImg10 [cDetMoldDegenerate] (1 / 2)
      cDetMoldDegenerate (List.mem_singleton.mpr rfl) hs hm

/-- C3 amended — a detection whose clipped box is degenerate
(`xmin ≥ xmax` or `ymin ≥ ymax`) is skipped for drawing only: the drawn
boxes are exactly the accepted nondegenerate detections, but an accepted
mold-labelled detection still makes the verdict `"BERJAMUR"` even when its
clipped box is degenerate. -/
theorem degenerate_box_not_drawn_but_counted (img : Img3)
    (dets : List Detection) (thr : ℚ) :
    (draw_detections_and_classify img dets thr).1.boxes =
      (dets.filter (fun d => acceptedDet thr d &&
        nondegenerate img.width img.height d)).map
          (renderBox img.width img.height) ∧
    (∀ d ∈ dets, ¬ (scoreOf d < thr) → isMoldName d.name = true →
      (draw_detections_and_classify img dets thr).2 = "BERJAMUR") := by
  constructor
  · by_cases hne : dets = []
    · subst hne; rfl
    · simp only [draw_detections_and_classify, if_neg hne]
      rw [foldl_processDet_fst]
      simp
  · intro d hd hs hm
    exact verdict_of_accepted_mold img dets thr d hd hs hm

theorem degenerate_box_not_drawn_but_counted_witness :
    (draw_detections_and_classify cImg10 [cDetMoldDegenerate] (1 / 2)).1.boxes
      = ([cDetMoldDegenerate].filter (fun d => acceptedDet (1 / 2) d &&
          nondegenerate cImg10.width cImg10.height d)).map
            (renderBox cImg10.width cImg10.height) ∧
    cDetMoldDegenerate ∈ [cDetMoldDegenerate] ∧
    (draw_detections_and_classify cImg10 [cDetMoldDegenerate] (1 / 2)).2
      = "BERJAMUR" :=
  ⟨(degenerate_box_not_drawn_but_counted cImg10 [cDetMoldDegenerate]
      (1 / 2)).1,
   List.mem_singleton.mpr rfl,
   (degenerate_box_not_drawn_but_counted cImg10 [cDetMoldDegenerate]
      (1 / 2)).2 cDetMoldDegenerate (List.mem_singleton.mpr rfl)
      (by norm_num [scoreOf, cDetMoldDegenerate]) (by decide)⟩

/-- C10 — a detection record without a `'score'` field defaults to score
1.0 (`Tubes.py` line 128), so for any confidence threshold in [0, 1] it is
never skipped, and if its label is a mold synonym the verdict is
`"BERJAMUR"`. -/
theorem missing_score_defaults_to_one (img : Img3) (dets : List Detection)
    (thr : ℚ) (h0 : 0 ≤ thr) (h1 : thr ≤ 1) :
    ∀ d ∈ dets, d.score = none →
      scoreOf d = 1 ∧ ¬ (scoreOf d < thr) ∧
      (isMoldName d.name = true →
        (draw_detections_and_classify img dets thr).2 = "BERJAMUR") := by
  intro d hd hn
  have hs1 : scoreOf d = 1 := by simp [scoreOf, hn]
  have hns : ¬ scoreOf d < thr := by rw [hs1]; exact not_lt.mpr h1
  exact ⟨hs1, hns,
    fun hm => verdict_of_accepted_mold img dets thr d hd hns hm⟩

theorem missing_score_defaults_to_one_witness :
    (0 : ℚ) ≤ 1 / 2 ∧ (1 / 2 : ℚ) ≤ 1 ∧ cDetNoScore ∈ [cDetNoScore] ∧
    cDetNoScore.score = none ∧ scoreOf cDetNoScore = 1 ∧
    ¬ (scoreOf cDetNoScore < 1 / 2) ∧
    (draw_detections_and_classify cImg10 [cDetNoScore] (1 / 2)).2
      = "BERJAMUR" := by
  have h := missing_score_defaults_to_one cImg10 [cDetNoScore] (1 / 2)
    (by norm_num) (by norm_num) cDetNoScore (List.mem_singleton.mpr rfl) rfl
  exact ⟨by norm_num, by norm_num, List.mem_singleton.mpr rfl, rfl,
    h.1, h.2.1, h.2.2 (by decide)⟩

/-! ## The state-invalidation invariant -/

theorem runMorph_isSome (op : MorphOp) (m : Mask) :
    ∃ mm, runMorph op (some m) = some mm := by
  cases op <;> exact ⟨_, rfl⟩

/-- C6 — state invalidation: re-running the enhancement stage clears the
cached HSV mask, morphed mask and detection result (`Tubes.py` lines
812-814); re-running HSV thresholding clears the morphed mask and the
detection result (lines 848 and 857); and consequently every state the
orchestrator can reach is `consistent`: each cached downstream output is
the stage function of the currently cached upstream input, never of a
stale one. -/
theorem state_invalidation :
    (∀ s o, s.original = some o →
      (action_step2 s).hsv_mask = none ∧
      (action_step2 s).morphed_mask = none ∧
      (action_step2 s).detection = none) ∧
    (∀ s p, s.processed = some p →
      (action_step3 s).morphed_mask = none ∧
      (action_step3 s).detection = none) ∧
    (∀ s, Reachable s → consistent s) := by
  refine ⟨?_, ?_, ?_⟩
  · intro s o ho
    simp [action_step2, ho, enhance_contrast_stretching]
  · intro s p hp
    simp [action_step3, hp, apply_hsv_threshold]
  · intro s hr
    induction hr with
    | init model => simp [consistent, initState]
    | @step s t hr hstep ih =>
      cases hstep with
      | load_success img h =>
        simp [consistent, action_step1_success]
      | load_fail h =>
        obtain ⟨-, -, -, c4⟩ := ih
        obtain ⟨ho, hp, hh, hm, hd⟩ := c4 h
        simp [consistent, action_step1_fail, hp, hh, hm, hd]
      | enhance h =>
        cases hso : s.original with
        | none => simpa [action_step2, hso] using ih
        | some o =>
          simp [consistent, action_step2, hso, enhance_contrast_stretching]
      | hsv h =>
        cases hsp : s.processed with
        | none => simpa [action_step3, hsp] using ih
        | some p =>
          have hred : action_step3 s =
              { s with hsv_mask := some (hsvThresholdCore p lowerHSV upperHSV),
                       morphed_mask := none, current_step := 3,
                       detection := none } := by
            simp [action_step3, hsp, apply_hsv_threshold]
          rw [hred]
          refine ⟨?_, by simp [consistent], by simp [consistent],
            by simp [consistent]⟩
          intro m hm
          refine ⟨p, by simpa using hsp, ?_⟩
          simpa [apply_hsv_threshold] using hm
      | morph op m h3 hm hnz =>
        have hz : ¬ countNonzero m = 0 := Nat.pos_iff_ne_zero.mp hnz
        obtain ⟨mm, hmm⟩ := runMorph_isSome op m
        have hred : (applyMorphology op s).1 =
            { s with morphed_mask := some mm,
                     detection := none } := by
          simp only [applyMorphology, hm, if_neg hz, hmm]
        rw [hred]
        obtain ⟨c1, -, -, -⟩ := ih
        refine ⟨fun m' hm' => ?_, fun mm' hmm' => ?_, by simp, fun h0 => ?_⟩
        · simpa using c1 m' (by simpa using hm')
        · have : mm = mm' := by simpa using hmm'
          exact ⟨m, by simpa using hm, op, this ▸ hmm⟩
        · simp at h0
          omega
      | classify dets hen hml =>
        cases hiy : imgForYolo s with
        | none => simpa [action_step5, hiy] using ih
        | some img =>
          have hred : action_step5 s dets =
              { s with detection := some (draw_detections_and_classify img dets (1 / 2)).1,
                       current_step := 5 } := by
            simp [action_step5, hiy, hml]
          rw [hred]
          obtain ⟨c1, c2, -, -⟩ := ih
          refine ⟨fun m' hm' => ?_, fun mm' hmm' => ?_,
            fun d hd => ?_, by simp⟩
          · simpa using c1 m' (by simpa using hm')
          · obtain ⟨m0, hm0, op0, hop0⟩ := c2 mm' (by simpa using hmm')
            exact ⟨m0, by simpa using hm0, op0, hop0⟩
          · have hiy' : imgForYolo
                { s with detection := some (draw_detections_and_classify img dets (1 / 2)).1,
                         current_step := 5 } = imgForYolo s := by
              simp [imgForYolo]
            have hd' : d = (draw_detections_and_classify img dets (1 / 2)).1
                := by simpa using hd.symm
            exact ⟨img, dets, hiy'.trans hiy, hd'⟩
      | reset h =>
        simp [consistent, action_step6_reset]

theorem state_invalidation_witness :
    cState1.original = some cImgA ∧
    ((action_step2 cState1).hsv_mask = none ∧
     (action_step2 cState1).morphed_mask = none ∧
     (action_step2 cState1).detection = none) ∧
    cState2.processed = some cImgA ∧
    ((action_step3 cState2).morphed_mask = none ∧
     (action_step3 cState2).detection = none) ∧
    consistent (initState true) :=
  ⟨rfl, state_invalidation.1 cState1 cImgA rfl, rfl,
   state_invalidation.2.1 cState2 cImgA rfl,
   state_invalidation.2.2 (initState true) (Reachable.init true)⟩

end Tubes
